import Mathlib

/-!
Verification of the eTunes music-library manager (radian-software/etunes).

The development shallowly embeds the two nontrivial parts of the repository:

* the metadata deduplication codec `merge_metadata` / `split_metadata`
  from `etunes.py`, and
* the transactional query engine `execute_query` (with its helpers
  `return_query_result`, `get_option`-style defaults, the concurrent
  transaction check, and the atomic file-write discipline) from
  `etunes/__init__.py`.

Python dicts are modelled as association lists `List (String × String)`
with insertion-order semantics matching CPython: assignment to an
existing key updates it in place, assignment to a fresh key appends.
Python `float` timestamps are modelled as rationals.  YAML/JSON
serialization is out of scope in the specification and is abstracted:
a file holds structured `FileData` rather than rendered text.
-/

namespace ETunes

/-- A Python dict with string keys and values, as an insertion-ordered
association list.  A list that represents a real dict has no duplicate
keys (`(d.map Prod.fst).Nodup`). -/
abbrev Dict := List (String × String)

/-- Lookup in an association list (first matching key), the model of
Python `d.get(k)` / `d[k]`. -/
def sget {α : Type} : List (String × α) → String → Option α
  | [], _ => none
  | kv :: t, k => if kv.1 == k then some kv.2 else sget t k

/-- Assignment `d[k] = v` on an association list: update the first
occurrence of the key in place, else append the new pair at the end.
This is CPython dict-assignment semantics. -/
def sset {α : Type} : List (String × α) → String → α → List (String × α)
  | [], k, v => [(k, v)]
  | kv :: t, k, v => if kv.1 == k then (k, v) :: t else kv :: sset t k v

/-- Left-biased choice on options (`a` if it is `some`, else `b`). -/
def oor {α : Type} (a b : Option α) : Option α :=
  match a with
  | some v => some v
  | none => b

@[simp] theorem oor_none {α : Type} (b : Option α) : oor none b = b := rfl

theorem oor_assoc {α : Type} (a b c : Option α) : oor (oor a b) c = oor a (oor b c) := by
  cases a <;> rfl

theorem oor_none_right {α : Type} (a : Option α) : oor a none = a := by
  cases a <;> rfl

@[simp] theorem sget_nil {α : Type} (k : String) : sget ([] : List (String × α)) k = none := rfl

theorem sget_cons {α : Type} (kv : String × α) (t : List (String × α)) (k : String) :
    sget (kv :: t) k = if kv.1 == k then some kv.2 else sget t k := rfl

theorem sget_sset_self {α : Type} (d : List (String × α)) (k : String) (v : α) :
    sget (sset d k v) k = some v := by
  induction d with
  | nil => simp [sset, sget]
  | cons kv t ih =>
      by_cases h : kv.1 == k
      · simp [sset, h, sget]
      · simp [sset, h, sget, ih]

theorem sget_sset_ne {α : Type} (d : List (String × α)) (k k' : String) (v : α)
    (h : k' ≠ k) : sget (sset d k v) k' = sget d k' := by
  have hkk : ¬ (k == k') := by
    simp only [beq_iff_eq]
    exact fun he => h he.symm
  induction d with
  | nil => simp [sset, sget, hkk]
  | cons kv t ih =>
      obtain ⟨a, b⟩ := kv
      by_cases hk : a == k
      · have hk' : a = k := by simpa using hk
        subst hk'
        simp [sset, sget, hkk]
      · simp [sset, hk, sget, ih]

theorem sget_sset {α : Type} (d : List (String × α)) (a k : String) (v : α) :
    sget (sset d a v) k = oor (if a == k then some v else none) (sget d k) := by
  by_cases h : a == k
  · have h' : a = k := by simpa using h
    subst h'
    simp [h, oor, sget_sset_self]
  · have h' : ¬ k = a := fun he => h (by simpa using he.symm)
    simp [h, oor, sget_sset_ne d a k v h']

theorem sget_append {α : Type} (l₁ l₂ : List (String × α)) (k : String) :
    sget (l₁ ++ l₂) k = oor (sget l₁ k) (sget l₂ k) := by
  induction l₁ with
  | nil => simp [oor]
  | cons kv t ih =>
      by_cases h : kv.1 == k
      · simp [sget, h, oor]
      · simp [sget, h, ih]

theorem sget_eq_none_of_not_mem {α : Type} (d : List (String × α)) (k : String)
    (h : k ∉ d.map Prod.fst) : sget d k = none := by
  induction d with
  | nil => rfl
  | cons kv t ih =>
      simp only [List.map_cons, List.mem_cons] at h
      push_neg at h
      have hne : ¬ (kv.1 == k) := by
        simp only [beq_iff_eq]
        exact fun he => h.1 (by simp [he])
      simp [sget, hne, ih h.2]

theorem mem_keys_of_sget_some {α : Type} (d : List (String × α)) (k : String) (v : α)
    (h : sget d k = some v) : k ∈ d.map Prod.fst := by
  by_contra hmem
  rw [sget_eq_none_of_not_mem d k hmem] at h
  exact Option.noConfusion h

theorem sget_isSome_of_mem_keys {α : Type} (d : List (String × α)) (k : String)
    (h : k ∈ d.map Prod.fst) : ∃ v, sget d k = some v := by
  induction d with
  | nil => simp at h
  | cons kv t ih =>
      by_cases hk : kv.1 == k
      · exact ⟨kv.2, by simp [sget, hk]⟩
      · simp only [List.map_cons, List.mem_cons] at h
        rcases h with h | h
        · exact absurd (by simp [h]) hk
        · rcases ih h with ⟨v, hv⟩
          exact ⟨v, by simp [sget, hk, hv]⟩

theorem sget_of_mem {α : Type} (d : List (String × α)) (kv : String × α)
    (hnd : (d.map Prod.fst).Nodup) (h : kv ∈ d) : sget d kv.1 = some kv.2 := by
  induction d with
  | nil => simp at h
  | cons a t ih =>
      simp only [List.map_cons, List.nodup_cons] at hnd
      rcases List.mem_cons.mp h with h | h
      · subst h
        simp [sget]
      · have hne : ¬ (a.1 == kv.1) := by
          simp only [beq_iff_eq]
          intro he
          exact hnd.1 (he ▸ List.mem_map_of_mem Prod.fst h)
        simp [sget, hne, ih hnd.2 h]

theorem sget_reverse {α : Type} (d : List (String × α)) (k : String)
    (hnd : (d.map Prod.fst).Nodup) : sget d.reverse k = sget d k := by
  induction d with
  | nil => rfl
  | cons kv t ih =>
      simp only [List.map_cons, List.nodup_cons] at hnd
      rw [List.reverse_cons, sget_append, ih hnd.2]
      by_cases h : kv.1 == k
      · have h' : kv.1 = k := by simpa using h
        rw [sget_eq_none_of_not_mem t k (h' ▸ hnd.1)]
        simp [sget, h, oor]
      · simp [sget, h, oor_none_right]

theorem keys_sset_subset {α : Type} (d : List (String × α)) (k k' : String) (v : α)
    (h : k' ∈ (sset d k v).map Prod.fst) : k' ∈ d.map Prod.fst ∨ k' = k := by
  induction d with
  | nil =>
      simp only [sset, List.map_cons, List.map_nil, List.mem_singleton] at h
      exact Or.inr h
  | cons kv t ih =>
      obtain ⟨a, b⟩ := kv
      by_cases hk : a == k
      · rw [sset, if_pos hk] at h
        simp only [List.map_cons, List.mem_cons] at h
        rcases h with h | h
        · exact Or.inr h
        · exact Or.inl (by simp [h])
      · rw [sset, if_neg hk] at h
        simp only [List.map_cons, List.mem_cons] at h
        rcases h with h | h
        · exact Or.inl (by simp [h])
        · rcases ih h with h' | h'
          · exact Or.inl (by simp [h'])
          · exact Or.inr h'

theorem keys_sset_nodup {α : Type} (d : List (String × α)) (k : String) (v : α)
    (hnd : (d.map Prod.fst).Nodup) : ((sset d k v).map Prod.fst).Nodup := by
  induction d with
  | nil => simp [sset]
  | cons kv t ih =>
      obtain ⟨a, b⟩ := kv
      simp only [List.map_cons, List.nodup_cons] at hnd
      by_cases hk : a == k
      · have hk' : a = k := by simpa using hk
        rw [sset, if_pos hk]
        simp only [List.map_cons, List.nodup_cons]
        exact ⟨hk' ▸ hnd.1, hnd.2⟩
      · have hk' : a ≠ k := by simpa using hk
        rw [sset, if_neg hk]
        simp only [List.map_cons, List.nodup_cons]
        refine ⟨fun hmem => ?_, ih hnd.2⟩
        rcases keys_sset_subset t k a v hmem with h | h
        · exact hnd.1 h
        · exact hk' h

/-! ### The metadata codec (`etunes.py`: `merge_metadata`, `split_metadata`) -/

/-- `merge_metadata(parent_metadata, child_metadata)` from `etunes.py`:
copy the parent entries into a fresh dict, then copy the child entries
over them. -/
def merge_metadata (parent_metadata child_metadata : Dict) : Dict :=
  let merged := parent_metadata.foldl (fun d kv => sset d kv.1 kv.2) []
  child_metadata.foldl (fun d kv => sset d kv.1 kv.2) merged

/-- Erase duplicates keeping the first occurrence of each element,
skipping anything already in `seen`.  This is the iteration order of a
Python `collections.Counter` (first-encounter order). -/
def eraseDupsFirstAux {α : Type} [DecidableEq α] (seen : List α) : List α → List α
  | [] => []
  | a :: t => if a ∈ seen then eraseDupsFirstAux seen t
              else a :: eraseDupsFirstAux (a :: seen) t

/-- Erase duplicates keeping first occurrences. -/
def eraseDupsFirst {α : Type} [DecidableEq α] (l : List α) : List α :=
  eraseDupsFirstAux [] l

/-- The inner loop of `split_metadata` over one attribute name: iterate
the distinct values of `child.get(key)` across the children in
first-encounter order (`collections.Counter` order) and pick the first
value `val` with `val` truthy (a non-empty string) and
`counts[val] * 2 >= len(children)`. -/
def pick_value (vals : List (Option String)) (n : Nat) : Option String :=
  (eraseDupsFirst vals).findSome? (fun v =>
    match v with
    | some s => if s == "" then none
                else if n ≤ 2 * vals.count (some s) then some s else none
    | none => none)

/-- All attribute names appearing in any child.  The source collects
them into a Python `set` whose iteration order is unspecified; the
model fixes first-appearance order, which does not matter because the
parent is only ever compared as a mapping and each key is treated
independently. -/
def all_keys (children : List Dict) : List String :=
  eraseDupsFirst (children.map (fun c => c.map Prod.fst)).flatten

/-- The parent dict built by the first half of `split_metadata`. -/
def split_parent (children : List Dict) : Dict :=
  (all_keys children).filterMap (fun k =>
    (pick_value (children.map (fun c => sget c k)) children.length).map
      (fun v => (k, v)))

/-- The per-child diff built by the second half of `split_metadata`:
keep exactly the entries where `child[key] != parent.get(key)`. -/
def split_child (parent child : Dict) : Dict :=
  child.filter (fun kv => some kv.2 != sget parent kv.1)

/-- `split_metadata(children)` from `etunes.py`: the shared parent and
the minimal per-child diffs. -/
def split_metadata (children : List Dict) : Dict × List Dict :=
  (split_parent children, children.map (fun c => split_child (split_parent children) c))

/-- Python `==` on dicts, for association lists without duplicate keys:
every entry of each is found in the other. -/
def dbeq (d₁ d₂ : Dict) : Bool :=
  d₁.all (fun kv => sget d₂ kv.1 == some kv.2) &&
    d₂.all (fun kv => sget d₁ kv.1 == some kv.2)

theorem sget_foldl_sset (l : List (String × String)) (init : Dict) (k : String) :
    sget (l.foldl (fun d kv => sset d kv.1 kv.2) init) k
      = oor (sget l.reverse k) (sget init k) := by
  induction l generalizing init with
  | nil => simp
  | cons kv t ih =>
      rw [List.foldl_cons, ih, List.reverse_cons, sget_append, oor_assoc]
      congr 1
      rw [sget_sset]
      simp [sget, oor_none_right]

theorem keys_foldl_sset_nodup (l : List (String × String)) (init : Dict)
    (hnd : (init.map Prod.fst).Nodup) :
    ((l.foldl (fun d kv => sset d kv.1 kv.2) init).map Prod.fst).Nodup := by
  induction l generalizing init with
  | nil => exact hnd
  | cons kv t ih => exact ih _ (keys_sset_nodup init kv.1 kv.2 hnd)

theorem keys_merge_nodup (p c : Dict) :
    ((merge_metadata p c).map Prod.fst).Nodup := by
  unfold merge_metadata
  exact keys_foldl_sset_nodup c _ (keys_foldl_sset_nodup p [] (by simp))

theorem sget_merge (p c : Dict) (k : String)
    (hp : (p.map Prod.fst).Nodup) (hc : (c.map Prod.fst).Nodup) :
    sget (merge_metadata p c) k = oor (sget c k) (sget p k) := by
  unfold merge_metadata
  rw [sget_foldl_sset, sget_reverse c k hc, sget_foldl_sset, sget_reverse p k hp]
  simp [oor_none_right]

theorem eraseDupsFirstAux_not_mem_seen {α : Type} [DecidableEq α] (seen l : List α)
    (a : α) (h : a ∈ eraseDupsFirstAux seen l) : a ∉ seen := by
  induction l generalizing seen with
  | nil => simp [eraseDupsFirstAux] at h
  | cons b t ih =>
      by_cases hb : b ∈ seen
      · rw [eraseDupsFirstAux, if_pos hb] at h
        exact ih seen h
      · rw [eraseDupsFirstAux, if_neg hb] at h
        rcases List.mem_cons.mp h with h | h
        · exact h ▸ hb
        · intro hs
          exact ih (b :: seen) h (List.mem_cons_of_mem b hs)

theorem eraseDupsFirstAux_nodup {α : Type} [DecidableEq α] (seen l : List α) :
    (eraseDupsFirstAux seen l).Nodup := by
  induction l generalizing seen with
  | nil => simp [eraseDupsFirstAux]
  | cons b t ih =>
      by_cases hb : b ∈ seen
      · rw [eraseDupsFirstAux, if_pos hb]
        exact ih seen
      · rw [eraseDupsFirstAux, if_neg hb]
        refine List.nodup_cons.mpr ⟨fun hmem => ?_, ih (b :: seen)⟩
        exact eraseDupsFirstAux_not_mem_seen (b :: seen) t b hmem (List.mem_cons_self b seen)

theorem eraseDupsFirst_nodup {α : Type} [DecidableEq α] (l : List α) :
    (eraseDupsFirst l).Nodup :=
  eraseDupsFirstAux_nodup [] l

theorem keys_split_parent_sublist (children : List Dict) :
    ((split_parent children).map Prod.fst).Sublist (all_keys children) := by
  unfold split_parent
  generalize all_keys children = l
  induction l with
  | nil => simp
  | cons k t ih =>
      rw [List.filterMap_cons]
      cases hpick : pick_value (children.map (fun c => sget c k)) children.length with
      | none => simpa using ih.cons k
      | some v => simpa using ih.cons₂ k

theorem keys_split_parent_nodup (children : List Dict) :
    ((split_parent children).map Prod.fst).Nodup :=
  (keys_split_parent_sublist children).nodup (eraseDupsFirst_nodup _)

theorem keys_split_child_nodup (parent child : Dict)
    (h : (child.map Prod.fst).Nodup) :
    ((split_child parent child).map Prod.fst).Nodup :=
  ((List.filter_sublist child).map Prod.fst).nodup h

theorem sget_filter (c : Dict) (p : String × String → Bool) (k : String)
    (hnd : (c.map Prod.fst).Nodup) :
    sget (c.filter p) k
      = match sget c k with
        | some v => if p (k, v) then some v else none
        | none => none := by
  induction c with
  | nil => simp
  | cons kv t ih =>
      obtain ⟨a, b⟩ := kv
      simp only [List.map_cons, List.nodup_cons] at hnd
      by_cases ha : a == k
      · have ha' : a = k := by simpa using ha
        subst ha'
        have htn : sget t a = none :=
          sget_eq_none_of_not_mem t a hnd.1
        by_cases hp : p (a, b)
        · simp [List.filter_cons, hp, sget, ha]
        · have := ih hnd.2
          simp [List.filter_cons, hp, sget, ha, this, htn]
      · by_cases hp : p (a, b)
        · simp [List.filter_cons, hp, sget, ha, ih hnd.2]
        · simp [List.filter_cons, hp, sget, ha, ih hnd.2]

theorem sget_merge_split_child (P c : Dict) (k : String)
    (hPnd : (P.map Prod.fst).Nodup) (hcnd : (c.map Prod.fst).Nodup)
    (hcov : ∀ kv ∈ P, kv.1 ∈ c.map Prod.fst) :
    sget (merge_metadata P (split_child P c)) k = sget c k := by
  have hscnd := keys_split_child_nodup P c hcnd
  rw [sget_merge P (split_child P c) k hPnd hscnd]
  rw [split_child, sget_filter c _ k hcnd]
  cases hck : sget c k with
  | some v =>
      by_cases hne : (some v != sget P k)
      · simp [hne, oor]
      · have : sget P k = some v := by
          simp only [bne_iff_ne, ne_eq, not_not] at hne
          exact hne.symm
        simp [hne, oor, this]
  | none =>
      simp only [oor_none]
      cases hPk : sget P k with
      | none => rfl
      | some w =>
          exfalso
          have hkP : k ∈ P.map Prod.fst := mem_keys_of_sget_some P k w hPk
          rcases List.mem_map.mp hkP with ⟨kv, hkv, hfst⟩
          have hkc : k ∈ c.map Prod.fst := hfst ▸ hcov kv hkv
          rcases sget_isSome_of_mem_keys c k hkc with ⟨v, hv⟩
          rw [hck] at hv
          exact Option.noConfusion hv

theorem dbeq_of_forall_sget (d₁ d₂ : Dict)
    (h₁ : (d₁.map Prod.fst).Nodup) (h₂ : (d₂.map Prod.fst).Nodup)
    (h : ∀ k, sget d₁ k = sget d₂ k) : dbeq d₁ d₂ = true := by
  unfold dbeq
  rw [Bool.and_eq_true, List.all_eq_true, List.all_eq_true]
  constructor
  · intro kv hkv
    rw [← h kv.1, sget_of_mem d₁ kv h₁ hkv]
    simp
  · intro kv hkv
    rw [h kv.1, sget_of_mem d₂ kv h₂ hkv]
    simp

/-! ### Claims about the metadata codec -/

/-- C1 (counterexample).  The round-trip law fails as stated: for the
children `[{a:"x"}, {a:"x"}, {}]` the value `"x"` is promoted to the
parent, but the third child's diff is empty, so
`merge(P, D[2]) = {a:"x"} ≠ {} = C[2]`. -/
theorem C1_counterexample :
    dbeq (merge_metadata (split_metadata [[("a","x")],[("a","x")],[]]).1
        ((split_metadata [[("a","x")],[("a","x")],[]]).2.getD 2 []))
      ([] : Dict) = false := by decide

/-- C1 (amended).  Round-trip law of the metadata codec, restricted to
the indices the code actually reconstructs: if `split_metadata C = (P, D)`
then for every index `i` such that every key of `P` occurs in `C[i]`
(in particular whenever all children carry the same attribute names),
`merge_metadata P D[i]` equals `C[i]` as a mapping.  Without that
restriction the law is false (see the counterexample): a child lacking
a majority-promoted key gains it back during the merge. -/
theorem C1_split_merge_roundtrip_amended (children : List Dict) (P : Dict)
    (D : List Dict) (c d : Dict) (i : Nat)
    (hsplit : split_metadata children = (P, D))
    (hc : children.get? i = some c) (hd : D.get? i = some d)
    (hnd : (c.map Prod.fst).Nodup)
    (hcov : ∀ kv ∈ P, kv.1 ∈ c.map Prod.fst) :
    dbeq (merge_metadata P d) c = true := by
  unfold split_metadata at hsplit
  injection hsplit with hP hD
  subst hP
  subst hD
  rw [List.get?_map, hc] at hd
  simp only [Option.map_some'] at hd
  injection hd with hd
  subst hd
  exact dbeq_of_forall_sget _ c (keys_merge_nodup _ _) hnd
    (fun k => sget_merge_split_child (split_parent children) c k
      (keys_split_parent_nodup children) hnd hcov)

/-- C1 (witness): the amended round-trip law applied to the concrete
children `[{a:"x"}, {a:"x"}, {a:"y"}]` at index 2, where the parent key
`a` is present in the child. -/
theorem C1_split_merge_roundtrip_amended_witness :
    dbeq (merge_metadata [("a","x")] [("a","y")]) [("a","y")] = true :=
  C1_split_merge_roundtrip_amended [[("a","x")],[("a","x")],[("a","y")]]
    [("a","x")] [[],[],[("a","y")]] [("a","y")] [("a","y")] 2
    (by decide) (by decide) (by decide) (by decide) (by decide)

/-- C6.  Falsy-value exclusion in `split_metadata`: for the children
`[{a:""}, {a:""}, {a:"x"}]` the empty string is the majority value but
is never promoted (Python `if val` is false for `""`), so the parent
has no key `a` and every child keeps its own `a` entry. -/
theorem C6_falsy_value_exclusion :
    sget (split_metadata [[("a","")],[("a","")],[("a","x")]]).1 "a" = none ∧
    (split_metadata [[("a","")],[("a","")],[("a","x")]]).2
      = [[("a","")],[("a","")],[("a","x")]] := by decide

/-! ### The transactional query engine (`etunes/__init__.py`)

Files hold structured data (YAML/JSON serialization is out of scope in
the specification): the library file holds its option map, the last-id
file holds a transaction id, the process file holds a parsed
`{pid, start-time}` record when its two lines parse, and `bad` stands
for any other (raw or unparseable) text.  Timestamps are rationals
standing in for the source's floats. -/

inductive FileData
  | yaml (options : List (String × String))
  | ident (s : String)
  | proc (pid : Int) (createTime : Rat)
  | bad (s : String)
deriving DecidableEq, Repr

/-- The text `f.read()` would produce for a file, used when the last-id
file is compared against the query's expected id.  The rendered text of
serialized forms is abstracted (no claim depends on it); an `ident`
file stores its id already stripped of the trailing newline. -/
def file_as_text : FileData → String
  | FileData.ident s => s
  | FileData.bad s => s
  | FileData.yaml _ => ""
  | FileData.proc _ _ => ""

/-- A structured error record collected into a Response's error list.
Messages are modelled without Python `repr` quoting. -/
structure ErrorRecord where
  reason : String
  message : String
  name : Option String := none
  value : Option String := none
  file : Option String := none
deriving DecidableEq, Repr

/-- The Response mapping built by `execute_query`.  `part` models the
`"partial"` key; `success` is `none` until `return_query_result` sets
it. -/
structure Response where
  part : Bool
  errors : List ErrorRecord
  options : Option (List String) := none
  success : Option Bool := none
deriving DecidableEq, Repr

/-- One `{name, value?}` element of a query's `options` list. -/
structure OptionSetting where
  name : String
  value : Option String
deriving DecidableEq, Repr

/-- A schema-valid query, restricted to the keys `execute_query`
actually consumes (`description`, `last-id`, `options`; the `songs`
and `import` keys are never read by `execute_query`). -/
structure Query where
  description : Option String := none
  lastId : Option String := none
  options : Option (List OptionSetting) := none
deriving DecidableEq, Repr

/-- The world `execute_query` runs in: the file system, the responses
emitted to stdout, the Git commits made, the supply of fresh UUIDs for
`uuid.uuid4()`, the set of paths whose writes raise `OSError`
(modelling write failures), whether the Git working tree is clean, and
the live processes with their start times (for `psutil`). -/
structure World where
  fs : List (String × FileData) := []
  stdout : List Response := []
  commits : List String := []
  uuids : List String := []
  failPaths : List String := []
  treeClean : Bool := true
  liveProcs : List (Int × Rat) := []
deriving Repr

/-- Fatal outcomes: exceptions that escape `execute_query` (the
`Error` exceptions it raises, plus the uncaught `KeyError` that
`new_options[option_setting["name"]]` raises for a name not present in
`new_options`). -/
inductive Fatal
  | dirtyTree
  | yamlReadError (file : String)
  | malformedLibrary (file : String)
  | concurrentTransaction (pid : Int)
  | malformedStoredValue (name value : String)
  | keyError (key : String)
deriving DecidableEq, Repr

/-- `DEFAULT_LIBRARY` from `etunes/__init__.py`.  In this package all
default values are plain strings, so the callable-default branch of
`get_option` is dead code. -/
def DEFAULT_LIBRARY : List (String × String) :=
  [("deduplication-threshold", "0.75"),
   ("media-path", "media/{album-artist}/{album}/{title}.{ext}"),
   ("metadata-path", "metadata/{album-artist}/{album}.yml")]

def PROCESS_FILENAME : String := "process"

def LAST_ID_FILENAME : String := "last-id"

/-- `os.path.join` for a non-empty relative directory, the only case
the engine's derived paths exercise. -/
def pathJoin (d f : String) : String := d ++ "/" ++ f

/-- `os.path.dirname` for relative paths: everything before the final
slash (empty when there is no slash). -/
def dirname (p : String) : String :=
  match p.data.reverse.dropWhile (fun c => !(c == '/')) with
  | [] => ""
  | _ :: rest => String.mk rest.reverse

def work_dir_of (libraryFile : String) : String :=
  pathJoin (dirname libraryFile) "work"

def process_file_of (libraryFile : String) : String :=
  pathJoin (work_dir_of libraryFile) PROCESS_FILENAME

def last_id_file_of (libraryFile : String) : String :=
  pathJoin (work_dir_of libraryFile) LAST_ID_FILENAME

/-- Recognizer for CPython `float(value)` on the plain decimal forms
the option values use: optional sign, digits with at most one decimal
point, at least one digit. -/
def pyFloatOkCore (l : List Char) : Bool :=
  match l.span Char.isDigit with
  | (ds, []) => !ds.isEmpty
  | (ds, c :: rest) =>
      if c == '.' then rest.all Char.isDigit && (!ds.isEmpty || !rest.isEmpty)
      else false

/-- Whether `decode_float(value)` from `etunes/__init__.py` succeeds. -/
def pyFloatOk (s : String) : Bool :=
  pyFloatOkCore (match s.data with
    | '+' :: r => r
    | '-' :: r => r
    | r => r)

/-- Whether `decode_option(name, value)` succeeds: only the
`deduplication-threshold` option has a decoder (string to float). -/
def decode_option_ok (name value : String) : Bool :=
  if name == "deduplication-threshold" then pyFloatOk value else true

/-- `validate_library_options`: the library file must be a map whose
keys all belong to `DEFAULT_LIBRARY` (the model's `FileData.yaml`
already forces a flat string-to-string map). -/
def validate_library_options (options : List (String × String)) : Bool :=
  options.all (fun kv => (DEFAULT_LIBRARY.map Prod.fst).contains kv.1)

/-- `get_option(io, options, key, filename)` for the recognized keys:
the stored value if present, else the built-in default.  All defaults
are plain strings here, so no `io` actions are needed. -/
def get_option (options : List (String × String)) (key : String) : Option String :=
  oor (sget options key) (sget DEFAULT_LIBRARY key)

/-- The `psutil.Process(pid).create_time()` lookup: `some` start time
when a process with that pid is alive, else `none` (which the source
surfaces as `psutil.NoSuchProcess`). -/
def lookup_create_time (live : List (Int × Rat)) (pid : Int) : Option Rat :=
  (live.find? (fun pr => pr.1 == pid)).map Prod.snd

/-- The concurrent-transaction check at the top of `execute_query`:
returns `some pid` exactly when the check raises (another query is
already running), `none` when the transaction may proceed.  A missing
file is `none` content; a file whose two lines do not parse as
`int`/`float` is any non-`proc` content (`ValueError` is caught); a
dead pid gives `lookup_create_time = none` (`psutil.NoSuchProcess` is
caught); otherwise the recorded and the live start time must agree
within 0.1 seconds for the lock to count as held. -/
def check_concurrent (content : Option FileData) (live : List (Int × Rat)) : Option Int :=
  match content with
  | some (FileData.proc pid t) =>
      match lookup_create_time live pid with
      | some rt => if |t - rt| < (1 : Rat) / 10 then some pid else none
      | none => none
  | _ => none

def intervening_error (actual expected : String) : ErrorRecord :=
  { reason := "intervening-transaction",
    message := "Another transaction (" ++ actual ++ ") happened after "
      ++ expected ++ " but before this one" }

def malformed_value_error (name value : String) : ErrorRecord :=
  { reason := "malformed-option-value",
    message := "Malformed value " ++ value ++ " for option " ++ name,
    name := some name, value := some value }

def unknown_option_error (name : String) : ErrorRecord :=
  { reason := "unknown-option",
    message := "Unknown option " ++ name,
    name := some name }

/-- An `os-error` record; the source stores `str(e)` as the message,
abstracted here. -/
def os_error (file : String) : ErrorRecord :=
  { reason := "os-error", message := "write failed", file := some file }

/-- `return_query_result(io, query, response, last_id_file)`: generate
a fresh transaction id, write it to the last-id file (appending an
`os-error` record instead if the write raises `OSError`), set
`success = not errors`, dump the response to stdout, and — only on
success — commit the working tree with the query's description (or
"Unnamed query") as the message.  The commit is `optional=True` in the
source (no empty commit when nothing changed); the model records the
commit message whenever the branch is taken, which no claim observes.
Returns the world together with the response as mutated by the call
(the source mutates the shared `response` dict in place). -/
def return_query_result (w : World) (q : Query) (response : Response)
    (lastIdFile : String) : World × Response :=
  let transaction_id := w.uuids.headD "out-of-uuids"
  let w₁ : World := { w with uuids := w.uuids.tail }
  let step : World × Response :=
    if w₁.failPaths.contains lastIdFile then
      (w₁, { response with errors := response.errors ++ [os_error lastIdFile] })
    else
      ({ w₁ with fs := sset w₁.fs lastIdFile (FileData.ident transaction_id) },
       response)
  let r : Response := { step.2 with success := some step.2.errors.isEmpty }
  let w₂ : World := { step.1 with stdout := step.1.stdout ++ [r] }
  if step.2.errors.isEmpty then
    ({ w₂ with commits := w₂.commits ++ [q.description.getD "Unnamed query"] }, r)
  else
    (w₂, r)

/-- The first loop over `query["options"]`: collect unknown names into
the `unknown_options` set, write given values through into
`new_options`, and record a `malformed-option-value` error when
decoding a given value fails. -/
def apply_option_settings (settings : List OptionSetting)
    (unknowns : List String) (newOptions : List (String × String))
    (errors : List ErrorRecord) :
    List String × List (String × String) × List ErrorRecord :=
  match settings with
  | [] => (unknowns, newOptions, errors)
  | setting :: rest =>
      if (DEFAULT_LIBRARY.map Prod.fst).contains setting.name then
        match setting.value with
        | some v =>
            if decode_option_ok setting.name v then
              apply_option_settings rest unknowns (sset newOptions setting.name v) errors
            else
              apply_option_settings rest unknowns (sset newOptions setting.name v)
                (errors ++ [malformed_value_error setting.name v])
        | none => apply_option_settings rest unknowns newOptions errors
      else
        apply_option_settings rest (unknowns ++ [setting.name]) newOptions errors

/-- The second loop over `query["options"]`: look up each requested
name in `new_options`.  A name not present raises `KeyError` — this is
the uncaught exception the source hits for every unknown option and
for every recognized-but-unset option requested without a value. -/
def build_options_response (newOptions : List (String × String)) :
    List OptionSetting → Except String (List String)
  | [] => Except.ok []
  | setting :: rest =>
      match sget newOptions setting.name with
      | some v =>
          match build_options_response newOptions rest with
          | Except.ok vs => Except.ok (v :: vs)
          | Except.error e => Except.error e
      | none => Except.error setting.name

/-- The `intervening-transaction` check: when the query carries a
truthy `last-id` and the last-id file is readable, a differing stored
id yields one error record; a missing file (`OSError`) is ignored. -/
def intervening_errors (w : World) (q : Query) (libraryFile : String) :
    List ErrorRecord :=
  match q.lastId with
  | some expected =>
      if expected == "" then []
      else
        match sget w.fs (last_id_file_of libraryFile) with
        | some content =>
            if expected == file_as_text content then []
            else [intervening_error (file_as_text content) expected]
        | none => []
  | none => []

/-- The middle state of `execute_query` after option processing (end of
line 638 of `etunes/__init__.py`): the response built so far, the
options read from the library file, and `new_options`. -/
structure Mid where
  response : Response
  options : List (String × String)
  newOptions : List (String × String)
deriving DecidableEq, Repr

/-- Lines 559–638 of `execute_query`: working-tree check, library-file
read and validation, concurrent-transaction check, intervening-
transaction check, decoding of the stored options, and processing of
the query's option requests.  No write happens in this region; an
`Except.error` is an exception escaping `execute_query`, carrying the
recoverable-error list accumulated up to that point.  A `bad` library
file is a YAML parse error; `ident`/`proc` content parses to a
non-map and fails validation. -/
def process_options (w : World) (q : Query) (libraryFile : String) :
    Except (Fatal × List ErrorRecord) Mid :=
  if !w.treeClean then Except.error (Fatal.dirtyTree, [])
  else
    match sget w.fs libraryFile with
    | none => Except.error (Fatal.yamlReadError libraryFile, [])
    | some (FileData.bad _) => Except.error (Fatal.yamlReadError libraryFile, [])
    | some (FileData.ident _) => Except.error (Fatal.malformedLibrary libraryFile, [])
    | some (FileData.proc _ _) => Except.error (Fatal.malformedLibrary libraryFile, [])
    | some (FileData.yaml options) =>
        if !validate_library_options options then
          Except.error (Fatal.malformedLibrary libraryFile, [])
        else
          match check_concurrent (sget w.fs (process_file_of libraryFile)) w.liveProcs with
          | some pid => Except.error (Fatal.concurrentTransaction pid, [])
          | none =>
              match options.find? (fun kv => !decode_option_ok kv.1 kv.2) with
              | some kv =>
                  Except.error (Fatal.malformedStoredValue kv.1 kv.2,
                    intervening_errors w q libraryFile)
              | none =>
                  match q.options with
                  | none =>
                      Except.ok
                        { response :=
                            { part := false
                              errors := intervening_errors w q libraryFile }
                          options := options
                          newOptions := options }
                  | some settings =>
                      match apply_option_settings settings [] options
                          (intervening_errors w q libraryFile) with
                      | (unknowns, newOptions, errors) =>
                          match build_options_response newOptions settings with
                          | Except.error missing =>
                              Except.error (Fatal.keyError missing, errors)
                          | Except.ok optionValues =>
                              Except.ok
                                { response :=
                                    { part := false
                                      errors := errors ++
                                        (eraseDupsFirst unknowns).map unknown_option_error
                                      options := some optionValues }
                                  options := options
                                  newOptions := newOptions }

/-- The result of one `execute_query` call: the escaping exception (if
any), the final world, and the recoverable-error list at the moment
the call ended. -/
structure ExecResult where
  fatal : Option Fatal
  world : World
  errs : List ErrorRecord
deriving Repr

/-- Package the world and mutated response of the final
`return_query_result` call. -/
def mk_exec_result (wr : World × Response) : ExecResult :=
  { fatal := none, world := wr.1, errs := wr.2.errors }

/-- Lines 642–653 of `execute_query` (see `finish_query`). -/
def finish_commit (wr : World × Response) (q : Query) (mid : Mid)
    (libraryFile lastIdFile : String) : ExecResult :=
  if dbeq mid.newOptions mid.options then
    mk_exec_result (return_query_result wr.1 q { wr.2 with part := false } lastIdFile)
  else if wr.1.failPaths.contains libraryFile then
    mk_exec_result (return_query_result wr.1 q
      { wr.2 with errors := wr.2.errors ++ [os_error libraryFile], part := false }
      lastIdFile)
  else
    mk_exec_result (return_query_result
      { wr.1 with fs := sset wr.1.fs libraryFile (FileData.yaml mid.newOptions) }
      q { wr.2 with part := false } lastIdFile)

/-- Lines 639–653 of `execute_query`.  When errors were recorded,
`return_query_result` is invoked — and, the source having no `return`
there despite its comment "Now we start changing things on disk, if
there were no errors", execution falls through.  If `new_options`
differs from `options` the library file is written (`yaml_to_file`,
with a caught `FileNotFoundError` modelled by `failPaths` turning into
an `os-error` record).  The source sets `response["partial"] = True`
after a successful write (line 645) and unconditionally overwrites it
with `False` (line 652) before the final `return_query_result`; the
model keeps the net effect, `part := false`. -/
def finish_query (w : World) (q : Query) (mid : Mid)
    (libraryFile lastIdFile : String) : ExecResult :=
  finish_commit
    (if mid.response.errors.isEmpty then (w, mid.response)
     else return_query_result w q mid.response lastIdFile)
    q mid libraryFile lastIdFile

/-- `execute_query(io, query, query_name, library_file)` from
`etunes/__init__.py`. -/
def execute_query (w : World) (q : Query) (libraryFile : String) : ExecResult :=
  match process_options w q libraryFile with
  | Except.error fe => { fatal := some fe.1, world := w, errs := fe.2 }
  | Except.ok mid => finish_query w q mid libraryFile (last_id_file_of libraryFile)

/-! ### The atomic write discipline (`write_data_file` in `etunes.py`,
`yaml_to_file` in `etunes/__init__.py`)

For the atomicity claim the file system maps paths to raw text, and
the observable intermediate states of one write are listed
explicitly. -/

/-- Delete a path from the file-system map. -/
def fsRemove {α : Type} : List (String × α) → String → List (String × α)
  | [], _ => []
  | kv :: t, k => if kv.1 == k then t else kv :: fsRemove t k

/-- `os.rename(src, dst)`: move the content of `src` to `dst`,
replacing any existing `dst` (a no-op if `src` does not exist, a case
the write discipline never reaches). -/
def fsRename {α : Type} (fs : List (String × α)) (src dst : String) :
    List (String × α) :=
  match sget fs src with
  | some c => sset (fsRemove fs src) dst c
  | none => fs

/-- The observable file-system states during
`write_data_file(filename, metadata)` from `etunes.py`: the initial
state; the temporary file `filename + ".tmp"` holding `interim` (the
partial text present if the dump aborts partway); the temporary file
holding the complete `content`; and the state after
`os.rename(tmp_filename, filename)`.  `yaml_to_file` in
`etunes/__init__.py` follows the same temporary-file-then-rename
discipline. -/
def write_data_file_states (fs : List (String × String))
    (filename content interim : String) : List (List (String × String)) :=
  [fs,
   sset fs (filename ++ ".tmp") interim,
   sset fs (filename ++ ".tmp") content,
   fsRename (sset fs (filename ++ ".tmp") content) (filename ++ ".tmp") filename]

/-! ### Behavioural lemmas about the engine -/

theorem return_query_result_part (w : World) (q : Query) (r : Response) (f : String) :
    (return_query_result w q r f).2.part = r.part := by
  simp only [return_query_result]
  split
  · split
    · rfl
    · rfl
  · split
    · rfl
    · rfl

theorem return_query_result_stdout_eq (w : World) (q : Query) (r : Response) (f : String) :
    (return_query_result w q r f).1.stdout
      = w.stdout ++ [(return_query_result w q r f).2] := by
  simp only [return_query_result]
  split
  · split
    · rfl
    · rfl
  · split
    · rfl
    · rfl

theorem return_query_result_stdout (w : World) (q : Query) (r : Response) (f : String) :
    ∃ s, (return_query_result w q r f).1.stdout = w.stdout ++ [s] ∧ s.part = r.part :=
  ⟨(return_query_result w q r f).2, return_query_result_stdout_eq w q r f,
    return_query_result_part w q r f⟩

theorem return_query_result_stdout_length (w : World) (q : Query) (r : Response)
    (f : String) :
    (return_query_result w q r f).1.stdout.length = w.stdout.length + 1 := by
  obtain ⟨s, hs, _⟩ := return_query_result_stdout w q r f
  simp [hs]

theorem return_query_result_uuids (w : World) (q : Query) (r : Response) (f : String) :
    (return_query_result w q r f).1.uuids = w.uuids.tail := by
  simp only [return_query_result]
  split
  · split
    · rfl
    · rfl
  · split
    · rfl
    · rfl

theorem return_query_result_failPaths (w : World) (q : Query) (r : Response)
    (f : String) :
    (return_query_result w q r f).1.failPaths = w.failPaths := by
  simp only [return_query_result]
  split
  · split
    · rfl
    · rfl
  · split
    · rfl
    · rfl

theorem return_query_result_fs (w : World) (q : Query) (r : Response) (f : String)
    (hf : w.failPaths.contains f = false) :
    (return_query_result w q r f).1.fs
      = sset w.fs f (FileData.ident (w.uuids.headD "out-of-uuids")) := by
  simp only [return_query_result]
  split
  next hcontains =>
    rw [hf] at hcontains
    exact Bool.noConfusion hcontains
  next hcontains => split <;> rfl

theorem return_query_result_fs_ne (w : World) (q : Query) (r : Response) (f p : String)
    (hp : p ≠ f) :
    sget (return_query_result w q r f).1.fs p = sget w.fs p := by
  simp only [return_query_result]
  split
  · split <;> rfl
  · split <;> exact sget_sset_ne _ _ _ _ hp

theorem process_options_part_false (w : World) (q : Query) (lib : String) (mid : Mid)
    (h : process_options w q lib = Except.ok mid) : mid.response.part = false := by
  unfold process_options at h
  iterate 12 (all_goals try split at h)
  all_goals first
    | exact Except.noConfusion h
    | (injection h with h; subst h; rfl)

theorem finish_commit_stdout (wr : World × Response) (q : Query) (mid : Mid)
    (lib f : String) :
    ∃ s, (finish_commit wr q mid lib f).world.stdout = wr.1.stdout ++ [s] ∧
      s.part = false := by
  unfold finish_commit mk_exec_result
  split
  · obtain ⟨s, hs, hp⟩ :=
      return_query_result_stdout wr.1 q { wr.2 with part := false } f
    exact ⟨s, hs, hp⟩
  · split
    · obtain ⟨s, hs, hp⟩ := return_query_result_stdout wr.1 q
        { wr.2 with errors := wr.2.errors ++ [os_error lib], part := false } f
      exact ⟨s, hs, hp⟩
    · obtain ⟨s, hs, hp⟩ := return_query_result_stdout
        { wr.1 with fs := sset wr.1.fs lib (FileData.yaml mid.newOptions) } q
        { wr.2 with part := false } f
      exact ⟨s, hs, hp⟩

theorem finish_commit_stdout_length (wr : World × Response) (q : Query) (mid : Mid)
    (lib f : String) :
    (finish_commit wr q mid lib f).world.stdout.length = wr.1.stdout.length + 1 := by
  obtain ⟨s, hs, _⟩ := finish_commit_stdout wr q mid lib f
  simp [hs]

theorem finish_commit_fs_ne (wr : World × Response) (q : Query) (mid : Mid)
    (lib f p : String) (hpf : p ≠ f) (hplib : p ≠ lib) :
    sget (finish_commit wr q mid lib f).world.fs p = sget wr.1.fs p := by
  unfold finish_commit mk_exec_result
  split
  · exact return_query_result_fs_ne _ _ _ _ _ hpf
  · split
    · exact return_query_result_fs_ne _ _ _ _ _ hpf
    · rw [return_query_result_fs_ne _ _ _ _ _ hpf]
      exact sget_sset_ne _ _ _ _ hplib

theorem finish_commit_fs_lastid (wr : World × Response) (q : Query) (mid : Mid)
    (lib f : String)
    (hf : wr.1.failPaths.contains f = false)
    (hflib : wr.1.failPaths.contains lib = false) :
    sget (finish_commit wr q mid lib f).world.fs f
      = some (FileData.ident (wr.1.uuids.headD "out-of-uuids")) := by
  unfold finish_commit mk_exec_result
  split
  · rw [return_query_result_fs _ _ _ _ hf]
    exact sget_sset_self _ _ _
  · rw [if_neg (by rw [hflib]; simp)]
    have hf' : ({ wr.1 with
        fs := sset wr.1.fs lib (FileData.yaml mid.newOptions) } : World).failPaths.contains f
        = false := hf
    rw [return_query_result_fs _ _ _ _ hf']
    exact sget_sset_self _ _ _

theorem finish_query_stdout (w : World) (q : Query) (mid : Mid) (lib f : String)
    (hmid : mid.response.part = false) :
    ∃ L, (finish_query w q mid lib f).world.stdout = w.stdout ++ L ∧
      ∀ x ∈ L, x.part = false := by
  unfold finish_query
  by_cases herr : mid.response.errors.isEmpty
  · rw [if_pos herr]
    obtain ⟨s, hs, hp⟩ := finish_commit_stdout (w, mid.response) q mid lib f
    refine ⟨[s], hs, ?_⟩
    intro x hx
    rw [List.mem_singleton] at hx
    subst hx
    exact hp
  · rw [if_neg herr]
    obtain ⟨s₀, hs₀, hp₀⟩ := return_query_result_stdout w q mid.response f
    obtain ⟨s₁, hs₁, hp₁⟩ :=
      finish_commit_stdout (return_query_result w q mid.response f) q mid lib f
    refine ⟨[s₀, s₁], ?_, ?_⟩
    · rw [hs₁, hs₀, List.append_assoc]
      rfl
    · intro x hx
      rcases List.mem_cons.mp hx with hx | hx
      · subst hx
        rw [hp₀]
        exact hmid
      · rw [List.mem_singleton] at hx
        subst hx
        exact hp₁

/-- The engine's derived paths inside the work directory are distinct:
the process file is never the last-id file. -/
theorem process_file_ne_last_id_file (lib : String) :
    process_file_of lib ≠ last_id_file_of lib := by
  intro h
  unfold process_file_of last_id_file_of pathJoin at h
  have hd := congrArg String.data h
  simp only [String.data_append] at hd
  have hfile := List.append_cancel_left hd
  exact absurd hfile (by decide)

/-! ### Claims about the transaction engine -/

/-- C5.  The concurrent-transaction check fails (returning the pid it
blames) if and only if the process file exists with a parseable
`{pid, start-time}` record, a process with that pid is alive, and the
recorded and actual start times differ by less than the 0.1-second
epsilon.  Every other outcome — file missing, malformed content,
process gone, or times at least the epsilon apart — proceeds.  The
check sits before any mutation: `process_options` performs no write. -/
theorem C5_concurrent_check_iff (content : Option FileData)
    (live : List (Int × Rat)) (pid : Int) :
    check_concurrent content live = some pid ↔
      ∃ t rt, content = some (FileData.proc pid t) ∧
        lookup_create_time live pid = some rt ∧ |t - rt| < (1 : Rat) / 10 := by
  constructor
  · intro h
    cases content with
    | none => simp [check_concurrent] at h
    | some fd =>
        cases fd with
        | yaml o => simp [check_concurrent] at h
        | ident s => simp [check_concurrent] at h
        | bad s => simp [check_concurrent] at h
        | proc p t =>
            simp only [check_concurrent] at h
            split at h
            next rt hrt =>
              split at h
              next hlt =>
                injection h with h
                subst h
                exact ⟨t, rt, rfl, hrt, hlt⟩
              next hlt => exact absurd h (by simp)
            next hrt => exact absurd h (by simp)
  · rintro ⟨t, rt, hcontent, hlook, hlt⟩
    subst hcontent
    simp only [check_concurrent, hlook]
    rw [if_pos hlt]

/-- C9.  Writes through the temporary-file-then-rename discipline are
atomic: at every observable intermediate state — including the state
left by a dump that aborts partway through writing the temporary file —
the destination file holds either its complete original content or the
complete new content, never a mixture. -/
theorem C9_atomic_write (fs : List (String × String))
    (filename content interim : String) :
    ∀ s ∈ write_data_file_states fs filename content interim,
      sget s filename = sget fs filename ∨ sget s filename = some content := by
  have h4 : (".tmp" : String).length = 4 := rfl
  have htmp : filename ≠ filename ++ ".tmp" := by
    intro h
    have hlen := congrArg String.length h
    rw [String.length_append, h4] at hlen
    omega
  intro s hs
  simp only [write_data_file_states, List.mem_cons, List.not_mem_nil, or_false] at hs
  rcases hs with rfl | rfl | rfl | rfl
  · exact Or.inl rfl
  · exact Or.inl (sget_sset_ne _ _ _ _ htmp)
  · exact Or.inl (sget_sset_ne _ _ _ _ htmp)
  · right
    rw [fsRename, sget_sset_self]
    exact sget_sset_self _ _ _

/-- C9 (witness): the atomicity statement instantiated at the state in
which a partial dump `"pa"` has been written to the temporary file:
the destination still holds its old content. -/
theorem C9_atomic_write_witness :
    sget (sset [("f", "old")] ("f" ++ ".tmp") "pa") "f" = sget [("f", "old")] "f" ∨
    sget (sset [("f", "old")] ("f" ++ ".tmp") "pa") "f" = some "new" :=
  C9_atomic_write [("f", "old")] "f" "new" "pa" _ (by decide)

/-- C2 (code bug).  The source's own comment at line 641 — "Now we
start changing things on disk, if there were no errors" — and the
specification both say that with accumulated errors no option change
is persisted, but the `if errors:` branch at line 639 lacks a
`return`, so execution falls through and writes the new options
anyway.  Concretely: a query carrying a stale `last-id` (recording an
`intervening-transaction` error) and setting
`deduplication-threshold` to `0.5` ends with the error recorded and
the library file rewritten with the new value. -/
theorem C2_error_path_still_writes :
    (execute_query
      { fs := [("lib/etunes.yml", FileData.yaml DEFAULT_LIBRARY),
               ("lib/work/last-id", FileData.ident "T-actual")],
        uuids := ["u0", "u1"] }
      { lastId := some "T-expected",
        options := some [⟨"deduplication-threshold", some "0.5"⟩] }
      "lib/etunes.yml").errs.map ErrorRecord.reason = ["intervening-transaction"] ∧
    sget (execute_query
      { fs := [("lib/etunes.yml", FileData.yaml DEFAULT_LIBRARY),
               ("lib/work/last-id", FileData.ident "T-actual")],
        uuids := ["u0", "u1"] }
      { lastId := some "T-expected",
        options := some [⟨"deduplication-threshold", some "0.5"⟩] }
      "lib/etunes.yml").world.fs "lib/etunes.yml"
      = some (FileData.yaml
          [("deduplication-threshold", "0.5"),
           ("media-path", "media/{album-artist}/{album}/{title}.{ext}"),
           ("metadata-path", "metadata/{album-artist}/{album}.yml")]) := by decide

/-- C3 (code bug).  A query naming an unknown option never reaches the
code that appends the `unknown-option` error record (lines 633–638):
the response-construction loop at line 631 evaluates
`new_options[option_setting["name"]]` first and raises an uncaught
`KeyError`, so no Response is emitted at all (the library file is
indeed left unchanged, and the error list is empty — the
`unknown-option` record was never recorded). -/
theorem C3_unknown_option_keyerror :
    (execute_query
      { fs := [("lib/etunes.yml", FileData.yaml DEFAULT_LIBRARY)],
        uuids := ["u0", "u1"] }
      { options := some [⟨"bogus-key", none⟩] }
      "lib/etunes.yml").fatal = some (Fatal.keyError "bogus-key") ∧
    (execute_query
      { fs := [("lib/etunes.yml", FileData.yaml DEFAULT_LIBRARY)],
        uuids := ["u0", "u1"] }
      { options := some [⟨"bogus-key", none⟩] }
      "lib/etunes.yml").world.stdout = [] ∧
    (execute_query
      { fs := [("lib/etunes.yml", FileData.yaml DEFAULT_LIBRARY)],
        uuids := ["u0", "u1"] }
      { options := some [⟨"bogus-key", none⟩] }
      "lib/etunes.yml").errs = [] ∧
    sget (execute_query
      { fs := [("lib/etunes.yml", FileData.yaml DEFAULT_LIBRARY)],
        uuids := ["u0", "u1"] }
      { options := some [⟨"bogus-key", none⟩] }
      "lib/etunes.yml").world.fs "lib/etunes.yml"
      = some (FileData.yaml DEFAULT_LIBRARY) := by decide

/-- C4 (code bug).  Requesting a recognized option that the library
file does not set, with no value, crashes with an uncaught `KeyError`
instead of reporting the built-in default: the response loop reads
`new_options[name]` directly and never consults `get_option`, whose
documented behaviour (shown in the last conjunct) is to fall back to
`DEFAULT_LIBRARY`.  An empty or per-key-sparse library file passes
validation, so this is a valid query against a valid library. -/
theorem C4_unset_option_keyerror :
    (execute_query
      { fs := [("lib/etunes.yml", FileData.yaml [("deduplication-threshold", "0.75")])],
        uuids := ["u0", "u1"] }
      { options := some [⟨"media-path", none⟩] }
      "lib/etunes.yml").fatal = some (Fatal.keyError "media-path") ∧
    (execute_query
      { fs := [("lib/etunes.yml", FileData.yaml [("deduplication-threshold", "0.75")])],
        uuids := ["u0", "u1"] }
      { options := some [⟨"media-path", none⟩] }
      "lib/etunes.yml").world.stdout = [] ∧
    get_option [("deduplication-threshold", "0.75")] "media-path"
      = some "media/{album-artist}/{album}/{title}.{ext}" := by decide

/-- C7.  Every Response emitted by `execute_query` has `partial` equal
to false — including in transactions that durably wrote the library
file before the response was sent: the flag set at line 645 is
unconditionally overwritten with `False` at line 652 before the final
`return_query_result`, and the first (error-path) emission happens
before any write while the flag still holds its initial `False`. -/
theorem C7_responses_never_partial (w : World) (q : Query) (lib : String) :
    ((execute_query w q lib).world.stdout.drop w.stdout.length).all
      (fun r => !r.part) = true := by
  cases hpo : process_options w q lib with
  | error fe =>
      simp [execute_query, hpo, List.drop_length]
  | ok mid =>
      have hpart := process_options_part_false w q lib mid hpo
      obtain ⟨L, hL, hall⟩ :=
        finish_query_stdout w q mid lib (last_id_file_of lib) hpart
      simp only [execute_query, hpo]
      rw [hL, List.drop_left, List.all_eq_true]
      intro x hx
      simp [hall x hx]

/-- C8.  `execute_query` never creates, writes, or deletes the process
lock file: the `{pid, start-time}` record is only ever read (the only
paths written are the last-id file and the library file, both distinct
from the process file), so no transaction establishes a lock covering
its own duration. -/
theorem C8_process_file_never_written (w : World) (q : Query) (lib : String)
    (hlib : lib ≠ process_file_of lib) :
    sget (execute_query w q lib).world.fs (process_file_of lib)
      = sget w.fs (process_file_of lib) := by
  cases hpo : process_options w q lib with
  | error fe => simp [execute_query, hpo]
  | ok mid =>
      simp only [execute_query, hpo]
      unfold finish_query
      by_cases herr : mid.response.errors.isEmpty = true
      · rw [if_pos herr]
        exact finish_commit_fs_ne (w, mid.response) q mid lib _ _
          (process_file_ne_last_id_file lib) (Ne.symm hlib)
      · rw [if_neg herr]
        rw [finish_commit_fs_ne _ q mid lib _ _
          (process_file_ne_last_id_file lib) (Ne.symm hlib)]
        exact return_query_result_fs_ne w q mid.response _ _
          (process_file_ne_last_id_file lib)

/-- C8 (witness): a concrete successful transaction leaves the process
file exactly as it was (absent). -/
theorem C8_process_file_never_written_witness :
    sget (execute_query
        { fs := [("lib/etunes.yml", FileData.yaml DEFAULT_LIBRARY)],
          uuids := ["u0", "u1"] }
        {} "lib/etunes.yml").world.fs (process_file_of "lib/etunes.yml")
      = sget ({ fs := [("lib/etunes.yml", FileData.yaml DEFAULT_LIBRARY)],
                uuids := ["u0", "u1"] } : World).fs (process_file_of "lib/etunes.yml") :=
  C8_process_file_never_written _ _ _ (by decide)

/-- C10 (counterexample).  The claim fails as stated: a query whose
options both set `deduplication-threshold` to an undecodable value
(recording a `malformed-option-value` error during option processing)
and name an unknown option crashes with the uncaught `KeyError` before
reaching line 639, so `return_query_result` runs zero times, not
twice, and nothing is written to stdout. -/
theorem C10_counterexample :
    (execute_query
      { fs := [("lib/etunes.yml", FileData.yaml DEFAULT_LIBRARY)],
        uuids := ["u0", "u1"] }
      { options := some [⟨"deduplication-threshold", some "abc"⟩, ⟨"bogus", none⟩] }
      "lib/etunes.yml").errs.map ErrorRecord.reason = ["malformed-option-value"] ∧
    (execute_query
      { fs := [("lib/etunes.yml", FileData.yaml DEFAULT_LIBRARY)],
        uuids := ["u0", "u1"] }
      { options := some [⟨"deduplication-threshold", some "abc"⟩, ⟨"bogus", none⟩] }
      "lib/etunes.yml").world.stdout.length = 0 ∧
    (execute_query
      { fs := [("lib/etunes.yml", FileData.yaml DEFAULT_LIBRARY)],
        uuids := ["u0", "u1"] }
      { options := some [⟨"deduplication-threshold", some "abc"⟩, ⟨"bogus", none⟩] }
      "lib/etunes.yml").fatal = some (Fatal.keyError "bogus") := by decide

/-- C10 (amended).  Whenever at least one recoverable error is
recorded during option processing and option processing completes
without raising (no `KeyError` from the response loop),
`execute_query` invokes `return_query_result` twice with no early
return between them: the Response is written to stdout twice, and two
successive freshly generated TransactionIds — distinct, the supply
being duplicate-free — are written to the last-id file in the same
transaction (the file holds the first id after the first invocation
and the second id at the end). -/
theorem C10_double_emission_amended (w : World) (q : Query) (lib : String) (mid : Mid)
    (u₀ u₁ : String) (rest : List String)
    (hok : process_options w q lib = Except.ok mid)
    (herr : mid.response.errors.isEmpty = false)
    (hstdout : w.stdout = [])
    (hfail : w.failPaths = [])
    (huu : w.uuids = u₀ :: u₁ :: rest)
    (hne : u₀ ≠ u₁) :
    (execute_query w q lib).world.stdout.length = 2 ∧
    sget (return_query_result w q mid.response (last_id_file_of lib)).1.fs
        (last_id_file_of lib) = some (FileData.ident u₀) ∧
    sget (execute_query w q lib).world.fs (last_id_file_of lib)
      = some (FileData.ident u₁) ∧
    u₀ ≠ u₁ := by
  have hf0 : w.failPaths.contains (last_id_file_of lib) = false := by
    rw [hfail]; rfl
  have hexec : execute_query w q lib
      = finish_commit (return_query_result w q mid.response (last_id_file_of lib))
          q mid lib (last_id_file_of lib) := by
    simp only [execute_query, hok]
    unfold finish_query
    rw [if_neg (by rw [herr]; simp)]
  have hwfail : (return_query_result w q mid.response (last_id_file_of lib)).1.failPaths
      = [] := by
    rw [return_query_result_failPaths, hfail]
  have hwfail_f : (return_query_result w q mid.response
      (last_id_file_of lib)).1.failPaths.contains (last_id_file_of lib) = false := by
    rw [hwfail]; rfl
  have hwfail_lib : (return_query_result w q mid.response
      (last_id_file_of lib)).1.failPaths.contains lib = false := by
    rw [hwfail]; rfl
  have hwuu : (return_query_result w q mid.response (last_id_file_of lib)).1.uuids
      = u₁ :: rest := by
    rw [return_query_result_uuids, huu]; rfl
  refine ⟨?_, ?_, ?_, hne⟩
  · rw [hexec, finish_commit_stdout_length, return_query_result_stdout_length,
      hstdout]
    rfl
  · rw [return_query_result_fs w q mid.response _ hf0, huu]
    exact sget_sset_self _ _ _
  · rw [hexec, finish_commit_fs_lastid _ q mid lib _ hwfail_f hwfail_lib, hwuu]
    rfl

/-- C10 (amended, witness): a transaction whose only recoverable error
is a stale `last-id` emits two Responses and writes the two fresh ids
`u0` then `u1` to the last-id file. -/
theorem C10_double_emission_amended_witness :
    (execute_query
        { fs := [("lib/etunes.yml", FileData.yaml DEFAULT_LIBRARY),
                 ("lib/work/last-id", FileData.ident "A")],
          uuids := ["u0", "u1"] }
        { lastId := some "B" }
        "lib/etunes.yml").world.stdout.length = 2 ∧
    sget (return_query_result
        { fs := [("lib/etunes.yml", FileData.yaml DEFAULT_LIBRARY),
                 ("lib/work/last-id", FileData.ident "A")],
          uuids := ["u0", "u1"] }
        { lastId := some "B" }
        { part := false, errors := [intervening_error "A" "B"] }
        (last_id_file_of "lib/etunes.yml")).1.fs
        (last_id_file_of "lib/etunes.yml") = some (FileData.ident "u0") ∧
    sget (execute_query
        { fs := [("lib/etunes.yml", FileData.yaml DEFAULT_LIBRARY),
                 ("lib/work/last-id", FileData.ident "A")],
          uuids := ["u0", "u1"] }
        { lastId := some "B" }
        "lib/etunes.yml").world.fs (last_id_file_of "lib/etunes.yml")
      = some (FileData.ident "u1") ∧
    ("u0" : String) ≠ "u1" :=
  C10_double_emission_amended
    { fs := [("lib/etunes.yml", FileData.yaml DEFAULT_LIBRARY),
             ("lib/work/last-id", FileData.ident "A")],
      uuids := ["u0", "u1"] }
    { lastId := some "B" }
    "lib/etunes.yml"
    ⟨{ part := false, errors := [intervening_error "A" "B"] },
      DEFAULT_LIBRARY, DEFAULT_LIBRARY⟩
    "u0" "u1" []
    rfl (by decide) rfl rfl rfl (by decide)

end ETunes
